import Mathlib

/-!
Verification development for the offset-guided WAT extraction pipeline
(`cc_pipeline`).  The Python modules `wat_extractor.py`, `pipeline.py` and
`config.py` are shallowly embedded below.  Remote object storage (S3) and the
`json` library are modelled as explicit environments (`RemoteStore`,
`JsonLib`): a store maps a location and byte range to an optional blob, and
the json library is a pair of a loader (returning `none` where Python
`json.loads` raises) and a serializer.  Byte strings are modelled as `String`
(the code decodes with errors="replace", which is total), machine integers as
`Int` (pandas `astype(int)` produces arbitrary-precision ints in Python).
Extraction functions additionally return a trace of remote operations
(`Op`), so that claims about which fetches and stream opens happen are
statable.
-/

/-- Model of a parsed JSON value (Python object produced by json.loads).
Numeric payloads are modelled as integers; none of the verified code paths
inspect numeric values. Object fields are an association list; the verified
code never depends on duplicate-key behaviour. -/
inductive Json where
  | null
  | bool (b : Bool)
  | num (n : Int)
  | str (s : String)
  | arr (elems : List Json)
  | obj (fields : List (String × Json))

/-- Python truthiness of a JSON value (used by `if head`, `x or y`, etc.). -/
def Json.truthy : Json → Bool
  | .null => false
  | .bool b => b
  | .num n => n ≠ 0
  | .str s => ¬ s.isEmpty
  | .arr es => ¬ es.isEmpty
  | .obj fs => ¬ fs.isEmpty

/-- True when the value is Python None (JSON null). -/
def Json.isNull : Json → Bool
  | .null => true
  | _ => false

/-- True when the value is exactly the string `s` (Python `== s` on a str). -/
def Json.isStr (s : String) : Json → Bool
  | .str t => t = s
  | _ => false

/-- First binding of `key` in an association list (dict lookup). -/
def jlookup : List (String × Json) → String → Option Json
  | [], _ => none
  | (k, v) :: rest, key => if k = key then some v else jlookup rest key

/-- The fields of a JSON object, or `none` when the value is not an object
(a Python dict). -/
def Json.asObj : Json → Option (List (String × Json))
  | .obj fs => some fs
  | _ => none

/-- Model of Python `d.get(k)`: `none` means the receiver is not a dict and
the attribute access raises; `some Json.null` models an absent key. -/
def Json.pyGet (j : Json) (k : String) : Option Json :=
  (j.asObj).map (fun fs => (jlookup fs k).getD Json.null)

/-- Model of Python `d.get(k, dict())`: `none` means the receiver is not a
dict (the call raises); an absent key yields an empty object. -/
def Json.pyGetD (j : Json) (k : String) : Option Json :=
  (j.asObj).map (fun fs => (jlookup fs k).getD (Json.obj []))

/-- Model of the Python json library boundary: `loads` returns `none` where
`json.loads` raises, `dumps` is the serializer used for the Head field. -/
structure JsonLib where
  loads : String → Option Json
  dumps : Json → String

/-- One record yielded by `warcio.ArchiveIterator` over the decompressed
archive stream: its record type header, its WARC-Target-URI header and the
bytes of its content stream. -/
structure WatRecord where
  rec_type : String
  target_uri : Option String
  content : String

/-- Model of the remote object store: a byte-range GET (none on failure,
matching `_s3_range_get` returning None) and opening a full object as a
decompressed record stream (none when `fs.open`, gzip framing or iterator
construction fails). -/
structure RemoteStore where
  range_get : String → Int → Int → Option String
  open_archive : String → Option (List WatRecord)

/-- The fields of `config.Config` consumed by the embedded code.  The two
retry fields are declared by the source configuration (config.py lines
19-20) and are modelled here exactly so that claims about the retry policy
are statable; the backoff interval is kept as a natural number since no
verified path evaluates it. -/
structure Config where
  use_range_reads : Bool
  s3_read_retries : Nat
  s3_read_retry_backoff : Nat
  max_workers : Nat
  chunk_size : Nat

/-- One extracted output row, as appended by `_stream_and_extract` and
`extract_by_offsets`: fields URL, Head, Entity-Digest, WatFile. -/
structure ExtractedRecord where
  url : Json
  head : Json
  digest : Json
  wat_file : String

/-- A remote operation performed by the extractor: a byte-range fetch or a
full-stream open.  Traced so that fetch order and fallback behaviour are
statable. -/
inductive Op where
  | rangeFetch (url : String) (start : Int) (len : Int)
  | openStream (url : String)
deriving DecidableEq

/-- True exactly for stream-open operations. -/
def Op.isOpen : Op → Bool
  | .openStream _ => true
  | _ => false

/-- An input row for one archive: offset, length, target url
(`(offset, length, url)` tuples of `extract_by_offsets`). -/
def OffsetRow := Int × Int × String

instance : DecidableEq OffsetRow := inferInstanceAs (DecidableEq (Int × Int × String))

/-- The expected Actual-Content-Type marker (wat_extractor.py line 40). -/
def content_type_marker : String := "application/http; msgtype=response"

/-- Result of `_parse_wat_record_bytes`: the dict it builds on success.
`head` is already the serialized-or-None "Head" entry; `digest` the
"Entity-Digest" entry; `envelope` the "Envelope" entry. -/
structure ParsedWat where
  head : Json
  digest : Json
  envelope : Json

/-- Embedding of `WATExtractor._parse_wat_record_bytes` (wat_extractor.py
lines 32-53).  Every `none` models the Python function returning None,
whether from the content-type mismatch at line 40 or from an exception
caught at line 51. -/
def parse_wat_record_bytes (J : JsonLib) (b : String) : Option ParsedWat :=
  match J.loads b with
  | none => none
  | some wat_json =>
    match wat_json.pyGetD "Envelope" with
    | none => none
    | some envelope =>
      match envelope.pyGetD "Payload-Metadata" with
      | none => none
      | some payload_meta =>
        match payload_meta.pyGet "Actual-Content-Type" with
        | none => none
        | some content_type =>
          if content_type.isStr content_type_marker then
            match payload_meta.pyGetD "HTTP-Response-Metadata" with
            | none => none
            | some hrm =>
              match hrm.pyGetD "HTML-Metadata" with
              | none => none
              | some html_meta =>
                match html_meta.pyGet "Head" with
                | none => none
                | some head =>
                  match payload_meta.pyGet "Entity-Digest" with
                  | none => none
                  | some d1 =>
                    match (if d1.truthy then some d1
                           else match envelope.pyGetD "WARC-Header-Metadata" with
                                | none => none
                                | some whm => whm.pyGet "WARC-Payload-Digest") with
                    | none => none
                    | some digest =>
                      some { head := if head.truthy then Json.str (J.dumps head) else Json.null,
                             digest := digest,
                             envelope := envelope }
          else none

/-- The nested Actual-Content-Type lookup performed by the parser, exposed
separately: `some v` means the navigation succeeds and yields `v`. -/
def actual_content_type (j : Json) : Option Json :=
  match j.pyGetD "Envelope" with
  | none => none
  | some envelope =>
    match envelope.pyGetD "Payload-Metadata" with
    | none => none
    | some payload_meta => payload_meta.pyGet "Actual-Content-Type"

/-- Python truthiness of `urls_of_interest` (None or an empty set is falsy). -/
def uoi_truthy : Option (List String) → Bool
  | none => false
  | some l => ¬ l.isEmpty

/-- Membership test `target_uri in urls_of_interest`; a None target URI is
never a member. -/
def uri_in (uoi : Option (List String)) (t : Option String) : Bool :=
  match t with
  | none => false
  | some s =>
    match uoi with
    | none => false
    | some l => l.contains s

/-- Lift a WARC header value (str or None) into the output dict. -/
def json_of_header : Option String → Json
  | none => Json.null
  | some s => Json.str s

/-- Outcome of processing a single streamed record inside the
`_stream_and_extract` loop. -/
inductive StepRes where
  | skip
  | abort
  | proc (found : Option ExtractedRecord)

/-- Embedding of the per-record body of the `_stream_and_extract` loop
(wat_extractor.py lines 86-113).  `skip` models `continue`; `abort` models
an exception escaping to the handler at line 117 (the scan then returns the
results accumulated so far); `proc r` models reaching line 114 with `r` the
optionally appended record.  The dead header probe at lines 89-92 binds a
variable that is never used and is omitted. -/
def scan_record (J : JsonLib) (s3_url : String) (uoi : Option (List String)) (r : WatRecord) : StepRes :=
  if r.rec_type = "metadata" then
    match J.loads r.content with
    | none => .abort
    | some payload =>
      match payload.pyGetD "Envelope" with
      | none => .abort
      | some envelope =>
        match envelope.pyGetD "Payload-Metadata" with
        | none => .abort
        | some payload_meta =>
          match payload_meta.pyGet "Actual-Content-Type" with
          | none => .abort
          | some ct =>
            if ct.isStr content_type_marker then
              if uoi_truthy uoi && !(uri_in uoi r.target_uri) then .skip
              else
                match payload_meta.pyGetD "HTTP-Response-Metadata" with
                | none => .abort
                | some hrm =>
                  match hrm.pyGetD "HTML-Metadata" with
                  | none => .abort
                  | some html_meta =>
                    match html_meta.pyGet "Head" with
                    | none => .abort
                    | some head =>
                      match payload_meta.pyGet "Entity-Digest" with
                      | none => .abort
                      | some d1 =>
                        match (if d1.truthy then some d1
                               else match envelope.pyGetD "WARC-Header-Metadata" with
                                    | none => none
                                    | some whm => whm.pyGet "WARC-Payload-Digest") with
                        | none => .abort
                        | some digest =>
                          if head.truthy || digest.truthy then
                            .proc (some { url := json_of_header r.target_uri,
                                          head := if head.truthy then Json.str (J.dumps head) else Json.null,
                                          digest := digest,
                                          wat_file := s3_url })
                          else .proc none
            else .skip
  else .skip

/-- Append an optionally found record to the accumulated results. -/
def step_append (results : List ExtractedRecord) : Option ExtractedRecord → List ExtractedRecord
  | some x => results ++ [x]
  | none => results

/-- Embedding of the record loop of `_stream_and_extract` (lines 86-116).
`n_offsets` is `len(offsets)`; the early-exit check at line 115 runs after
each fully processed record, appended or not. -/
def scan_loop (J : JsonLib) (s3_url : String) (n_offsets : Nat) (uoi : Option (List String)) :
    List WatRecord → List ExtractedRecord → List ExtractedRecord
  | [], results => results
  | r :: rest, results =>
    match scan_record J s3_url uoi r with
    | .skip => scan_loop J s3_url n_offsets uoi rest results
    | .abort => results
    | .proc found =>
      if uoi_truthy uoi && decide (n_offsets ≤ (step_append results found).length) then
        step_append results found
      else scan_loop J s3_url n_offsets uoi rest (step_append results found)

/-- Embedding of `WATExtractor._stream_and_extract` (lines 76-119): open the
archive as a record stream (one attempt; a failure is caught and yields the
empty result) and run the scan loop.  The returned trace records the single
stream-open operation. -/
def stream_and_extract (env : RemoteStore) (J : JsonLib) (s3_url : String)
    (offsets : List OffsetRow) (uoi : Option (List String)) :
    List ExtractedRecord × List Op :=
  match env.open_archive s3_url with
  | none => ([], [Op.openStream s3_url])
  | some recs => (scan_loop J s3_url offsets.length uoi recs [], [Op.openStream s3_url])

/-- Index of the first occurrence of `t`, as Python `txt.find(t)` with -1
mapped to `none`. -/
def findIdx : List Char → Char → Option Nat
  | [], _ => none
  | c :: rest, t => if c = t then some 0 else (findIdx rest t).map (· + 1)

/-- Index of the last occurrence of `t`, as Python `txt.rfind(t)` with -1
mapped to `none`. -/
def rfindIdx : List Char → Char → Option Nat
  | [], _ => none
  | c :: rest, t =>
    match rfindIdx rest t with
    | some i => some (i + 1)
    | none => if c = t then some 0 else none

/-- The JSON-boundary heuristic of `extract_by_offsets` (lines 142-150):
slice the decoded text from the first opening brace to the last closing
brace; `none` models the fallback condition at line 145 (either brace
absent, or the closing brace not strictly after the opening one). -/
def json_slice (txt : String) : Option String :=
  let cs := txt.toList
  match findIdx cs '\x7b', rfindIdx cs '\x7d' with
  | some s, some e =>
    if e ≤ s then none else some (String.mk ((cs.drop s).take (e + 1 - s)))
  | some _, none => none
  | none, _ => none

/-- The target-URI recovery of `extract_by_offsets` lines 156-162: look into
WARC-Header-Metadata; any failure is caught and yields None. -/
def recover_target_uri (envelope : Json) : Json :=
  match envelope.pyGetD "WARC-Header-Metadata" with
  | none => Json.null
  | some whm =>
    match whm.pyGet "WARC-Target-URI" with
    | none => Json.null
    | some v => v

/-- The fallback taken by the range-read strategy (lines 137, 148, 171,
175): the result is recomputed by a full sequential scan over all original
entries, discarding everything accumulated so far, and the trace extends the
fetches already issued with the operations of the scan. -/
def range_fallback (env : RemoteStore) (J : JsonLib) (s3_url : String)
    (all_rows : List OffsetRow) (uoi : Option (List String)) (ops : List Op) :
    List ExtractedRecord × List Op :=
  let s := stream_and_extract env J s3_url all_rows uoi
  (s.1, ops ++ s.2)

/-- The output row built from one successfully parsed range-read blob
(wat_extractor.py lines 153-168): the URL is recovered from the envelope
when truthy, else the target url of the offset row. -/
def range_record (s3_url : String) (row : OffsetRow) (parsed : ParsedWat) : ExtractedRecord :=
  { url := if (recover_target_uri parsed.envelope).truthy then recover_target_uri parsed.envelope
           else Json.str row.2.2,
    head := parsed.head,
    digest := parsed.digest,
    wat_file := s3_url }

/-- Embedding of the range-read loop of `extract_by_offsets` (lines
133-177).  Each pending row is fetched in order; a fetch returning no data,
a blob without a usable brace-delimited slice, or a parse returning None all
transfer control to `range_fallback`. -/
def range_loop (env : RemoteStore) (J : JsonLib) (s3_url : String)
    (all_rows : List OffsetRow) (uoi : Option (List String)) :
    List OffsetRow → List ExtractedRecord → List Op → List ExtractedRecord × List Op
  | [], results, ops => (results, ops)
  | row :: rest, results, ops =>
    let ops1 := ops ++ [Op.rangeFetch s3_url row.1 row.2.1]
    match env.range_get s3_url row.1 row.2.1 with
    | none => range_fallback env J s3_url all_rows uoi ops1
    | some data =>
      if data.isEmpty then range_fallback env J s3_url all_rows uoi ops1
      else
        match json_slice data with
        | none => range_fallback env J s3_url all_rows uoi ops1
        | some piece =>
          match parse_wat_record_bytes J piece with
          | none => range_fallback env J s3_url all_rows uoi ops1
          | some parsed =>
            range_loop env J s3_url all_rows uoi rest
              (results ++ [range_record s3_url row parsed]) ops1

/-- Embedding of `WATExtractor.extract_by_offsets` (lines 121-180): empty
input returns immediately; otherwise the range-read strategy runs when
enabled, and the full sequential scan otherwise. -/
def extract_by_offsets (env : RemoteStore) (cfg : Config) (J : JsonLib) (s3_url : String)
    (offset_rows : List OffsetRow) (uoi : Option (List String)) :
    List ExtractedRecord × List Op :=
  if offset_rows.isEmpty then ([], [])
  else if cfg.use_range_reads then range_loop env J s3_url offset_rows uoi offset_rows [] []
  else stream_and_extract env J s3_url offset_rows uoi

/-- One row of the Athena query result consumed by `Pipeline.run`
(pipeline.py line 34), after the integer coercion of offset and length at
lines 41-42. -/
structure QueryRow where
  url : String
  warc_filename : String
  offset : Int
  length : Int
  wat_s3_url : String
deriving DecidableEq

/-- The Athena result dataframe: its column names (authoritative for the
validation check at lines 35-38) together with its typed rows. -/
structure QueryResult where
  columns : List String
  rows : List QueryRow

/-- The required columns of pipeline.py line 35. -/
def required_columns : List String :=
  ["url", "warc_filename", "offset", "length", "wat_s3_url"]

/-- The message of the ValueError raised at pipeline.py line 38. -/
def validation_error_msg : String :=
  "Athena result must include url, warc_filename, offset, length, wat_s3_url"

/-- Strict lexicographic comparison of character lists by code point, the
order Python string comparison uses when pandas sorts the warc_filename
column. -/
def chars_ltb : List Char → List Char → Bool
  | [], [] => false
  | [], _ :: _ => true
  | _ :: _, [] => false
  | a :: as, b :: bs => if a < b then true else if b < a then false else chars_ltb as bs

theorem chars_ltb_irrefl : ∀ as, chars_ltb as as = false
  | [] => rfl
  | a :: as => by
    simp only [chars_ltb]
    rw [if_neg (lt_irrefl a), if_neg (lt_irrefl a)]
    exact chars_ltb_irrefl as

theorem chars_ltb_trans : ∀ as bs cs, chars_ltb as bs = true → chars_ltb bs cs = true →
    chars_ltb as cs = true
  | [], [], _, h1, _ => by cases h1
  | [], _ :: _, [], _, h2 => by cases h2
  | [], _ :: _, _ :: _, _, _ => rfl
  | _ :: _, [], _, h1, _ => by cases h1
  | _ :: _, _ :: _, [], _, h2 => by cases h2
  | a :: as, b :: bs, c :: cs, h1, h2 => by
    simp only [chars_ltb] at h1 h2 ⊢
    by_cases hab : a < b
    · by_cases hbc : b < c
      · rw [if_pos (lt_trans hab hbc)]
      · rw [if_neg hbc] at h2
        by_cases hcb : c < b
        · rw [if_pos hcb] at h2
          cases h2
        · have hbceq : b = c := le_antisymm (le_of_not_lt hcb) (le_of_not_lt hbc)
          subst hbceq
          rw [if_pos hab]
    · rw [if_neg hab] at h1
      by_cases hba : b < a
      · rw [if_pos hba] at h1
        cases h1
      · rw [if_neg hba] at h1
        have habeq : a = b := le_antisymm (le_of_not_lt hba) (le_of_not_lt hab)
        subst habeq
        by_cases hac : a < c
        · rw [if_pos hac]
        · rw [if_neg hac] at h2 ⊢
          by_cases hca : c < a
          · rw [if_pos hca] at h2
            cases h2
          · rw [if_neg hca] at h2 ⊢
            exact chars_ltb_trans as bs cs h1 h2

theorem chars_ltb_total : ∀ as bs, chars_ltb as bs = true ∨ chars_ltb bs as = true ∨ as = bs
  | [], [] => Or.inr (Or.inr rfl)
  | [], _ :: _ => Or.inl rfl
  | _ :: _, [] => Or.inr (Or.inl rfl)
  | a :: as, b :: bs => by
    rcases lt_trichotomy a b with h | h | h
    · refine Or.inl ?_
      simp only [chars_ltb]
      rw [if_pos h]
    · subst h
      rcases chars_ltb_total as bs with h2 | h2 | h2
      · refine Or.inl ?_
        simp only [chars_ltb]
        rw [if_neg (lt_irrefl a), if_neg (lt_irrefl a)]
        exact h2
      · refine Or.inr (Or.inl ?_)
        simp only [chars_ltb]
        rw [if_neg (lt_irrefl a), if_neg (lt_irrefl a)]
        exact h2
      · exact Or.inr (Or.inr (by rw [h2]))
    · refine Or.inr (Or.inl ?_)
      simp only [chars_ltb]
      rw [if_pos h]

/-- The sort key of `athena_df.sort_values(["warc_filename", "offset"])`
(pipeline.py line 43): lexicographic on warc_filename (by code point) then
ascending offset. -/
def row_le (a b : QueryRow) : Prop :=
  chars_ltb a.warc_filename.data b.warc_filename.data = true ∨
    (a.warc_filename = b.warc_filename ∧ a.offset ≤ b.offset)

instance : DecidableRel row_le := fun a b => by
  unfold row_le; infer_instance

instance : IsTotal QueryRow row_le where
  total a b := by
    unfold row_le
    rcases chars_ltb_total a.warc_filename.data b.warc_filename.data with h | h | h
    · exact Or.inl (Or.inl h)
    · exact Or.inr (Or.inl h)
    · have he : a.warc_filename = b.warc_filename := String.ext h
      rcases le_total a.offset b.offset with h2 | h2
      · exact Or.inl (Or.inr ⟨he, h2⟩)
      · exact Or.inr (Or.inr ⟨he.symm, h2⟩)

instance : IsTrans QueryRow row_le where
  trans a b c hab hbc := by
    unfold row_le at *
    rcases hab with h1 | ⟨h1, h1o⟩ <;> rcases hbc with h2 | ⟨h2, h2o⟩
    · exact Or.inl (chars_ltb_trans _ _ _ h1 h2)
    · exact Or.inl (h2 ▸ h1)
    · exact Or.inl (h1 ▸ h2)
    · exact Or.inr ⟨h1.trans h2, le_trans h1o h2o⟩

/-- The row sort of pipeline.py line 43, modelled with a stable
key-respecting sort. -/
def sort_rows (rows : List QueryRow) : List QueryRow :=
  List.insertionSort row_le rows

/-- The distinct group keys of `athena_df.groupby("wat_s3_url")` (pipeline.py
line 46).  Group order carries no guarantee used by any claim, so keys are
listed by first occurrence in the sorted frame. -/
def pipeline_keys (rows : List QueryRow) : List String :=
  ((sort_rows rows).map (fun r => r.wat_s3_url)).dedup

/-- The rows of the group of key `k`, in the within-group order pandas
preserves from the sorted frame. -/
def group_rows (rows : List QueryRow) (k : String) : List QueryRow :=
  (sort_rows rows).filter (fun r => r.wat_s3_url = k)

/-- The `(offset, length, url)` tuples handed to the worker for one group
(pipeline.py line 59). -/
def group_offset_rows (rows : List QueryRow) (k : String) : List OffsetRow :=
  (group_rows rows k).map (fun r => (r.offset, r.length, r.url))

/-- The archive work dispatched by `Pipeline.run`: one entry per distinct
archive location. -/
def pipeline_groups (rows : List QueryRow) : List (String × List OffsetRow) :=
  (pipeline_keys rows).map (fun k => (k, group_offset_rows rows k))

/-- Embedding of the validation and dispatch prefix of `Pipeline.run`
(pipeline.py lines 34-61): the required-columns check runs before any group
is built or submitted, and an error there means no archive extraction work
is dispatched at all. -/
def pipeline_dispatch (df : QueryResult) : Except String (List (String × List OffsetRow)) :=
  if required_columns.all (fun c => decide (c ∈ df.columns)) then
    Except.ok (pipeline_groups df.rows)
  else
    Except.error validation_error_msg

/-- The chunked-flush loop of `Pipeline.run` (lines 63-91): task results
arrive in completion order and extend one buffer; whenever the buffer length
reaches `K` (cfg.chunk_size) after a task completes, the whole buffer is
flushed as one batch and cleared; a final non-empty buffer is flushed at
the end.  A failed task contributes the empty list. -/
def flush_go (K : Nat) : List (List ExtractedRecord) → List ExtractedRecord → List (List ExtractedRecord)
  | [], buf => if buf.isEmpty then [] else [buf]
  | r :: rest, buf =>
    if K ≤ (buf ++ r).length then (buf ++ r) :: flush_go K rest []
    else flush_go K rest (buf ++ r)

/-- The batches the output sink receives for a run whose tasks produced
`tasks` (in completion order) under flush threshold `K`. -/
def flush_batches (K : Nat) (tasks : List (List ExtractedRecord)) : List (List ExtractedRecord) :=
  flush_go K tasks []

/-- The offsets of the range fetches in a trace, in issue order. -/
def range_starts (ops : List Op) : List Int :=
  ops.filterMap (fun o =>
    match o with
    | .rangeFetch _ s _ => some s
    | .openStream _ => none)

/-- Opening the full stream is independent of range-GET behaviour: two
stores that agree on `open_archive` at a location produce the same full
scan there. -/
theorem stream_and_extract_congr (env1 env2 : RemoteStore) (J : JsonLib) (u : String)
    (offs : List OffsetRow) (uoi : Option (List String))
    (h2 : env1.open_archive u = env2.open_archive u) :
    stream_and_extract env1 J u offs uoi = stream_and_extract env2 J u offs uoi := by
  unfold stream_and_extract
  rw [h2]

/-- The range loop only consults the store at its own archive location, so
two stores that agree there are interchangeable. -/
theorem range_loop_congr (env1 env2 : RemoteStore) (J : JsonLib) (u : String)
    (all : List OffsetRow) (uoi : Option (List String))
    (h1 : ∀ off len, env1.range_get u off len = env2.range_get u off len)
    (h2 : env1.open_archive u = env2.open_archive u) :
    ∀ pending results ops,
      range_loop env1 J u all uoi pending results ops =
        range_loop env2 J u all uoi pending results ops
  | [], _, _ => rfl
  | row :: rest, results, ops => by
    have hfb : ∀ ops1, range_fallback env1 J u all uoi ops1 = range_fallback env2 J u all uoi ops1 := by
      intro ops1
      unfold range_fallback
      rw [stream_and_extract_congr env1 env2 J u all uoi h2]
    simp only [range_loop]
    rw [h1 row.1 row.2.1]
    split
    · exact hfb _
    · split
      · exact hfb _
      · split
        · exact hfb _
        · split
          · exact hfb _
          · exact range_loop_congr env1 env2 J u all uoi h1 h2 rest _ _

/-- C9.  Per-archive extraction is deterministic in its inputs and in the
modelled remote store: any two stores presenting the same archive contents
at the group location (same range-GET responses and same full-stream
contents) yield the same list of extracted records and the same operation
trace, so running extraction twice on the same ArchiveGroup with the same
input gives identical results. -/
theorem extraction_deterministic (env1 env2 : RemoteStore) (cfg : Config) (J : JsonLib)
    (s3_url : String) (rows : List OffsetRow) (uoi : Option (List String))
    (h1 : ∀ off len, env1.range_get s3_url off len = env2.range_get s3_url off len)
    (h2 : env1.open_archive s3_url = env2.open_archive s3_url) :
    extract_by_offsets env1 cfg J s3_url rows uoi = extract_by_offsets env2 cfg J s3_url rows uoi := by
  unfold extract_by_offsets
  split
  · rfl
  · split
    · exact range_loop_congr env1 env2 J s3_url rows uoi h1 h2 rows [] []
    · exact stream_and_extract_congr env1 env2 J s3_url rows uoi h2

/-- A store whose every remote operation fails. -/
def st_fail : RemoteStore :=
  { range_get := fun _ _ _ => none, open_archive := fun _ => none }

/-- A store that fails like `st_fail` at every location except an unrelated
one; it agrees with `st_fail` at the location used in the witnesses. -/
def st_fail_alt : RemoteStore :=
  { range_get := fun _ _ _ => none,
    open_archive := fun s => if s = "s3://other/file" then some [] else none }

/-- A json library whose loader always fails. -/
def jl_none : JsonLib := { loads := fun _ => none, dumps := fun _ => "" }

/-- The default configuration with range reads enabled (config.py defaults:
s3_read_retries = 2, s3_read_retry_backoff = 2.0, max_workers = 8,
chunk_size = 2000, use_range_reads = True). -/
def cfg_range : Config :=
  { use_range_reads := true, s3_read_retries := 2, s3_read_retry_backoff := 2,
    max_workers := 8, chunk_size := 2000 }

/-- Witness for C9 at a concrete input: two distinct stores agreeing at the
archive location give identical extraction results. -/
theorem extraction_deterministic_witness :
    extract_by_offsets st_fail cfg_range jl_none "s3://b/k" [((0 : Int), (10 : Int), "u")] none =
      extract_by_offsets st_fail_alt cfg_range jl_none "s3://b/k" [((0 : Int), (10 : Int), "u")] none :=
  extraction_deterministic st_fail st_fail_alt cfg_range jl_none "s3://b/k"
    [((0 : Int), (10 : Int), "u")] none (fun _ _ => rfl) rfl

/-- C10.  Calling the per-archive extraction with an empty entry list
returns the empty result and performs no remote operation at all: no range
fetch is issued and no stream is opened, whatever the configuration. -/
theorem extract_empty_entries (env : RemoteStore) (cfg : Config) (J : JsonLib)
    (s3_url : String) (uoi : Option (List String)) :
    extract_by_offsets env cfg J s3_url [] uoi = ([], []) :=
  rfl

/-- Every operation in the trace accumulator stays untouched by the range
loop, and whenever the final trace contains a stream open that the
accumulator did not contain, the returned records are exactly the records
of the full sequential scan over all original entries. -/
theorem range_loop_fallback_exact (env : RemoteStore) (J : JsonLib) (u : String)
    (all : List OffsetRow) (uoi : Option (List String)) :
    ∀ pending results ops, (∀ o ∈ ops, o.isOpen = false) →
      (∃ o ∈ (range_loop env J u all uoi pending results ops).2, o.isOpen = true) →
      (range_loop env J u all uoi pending results ops).1 =
        (stream_and_extract env J u all uoi).1
  | [], results, ops, hops, hex => by
    obtain ⟨o, hm, ho⟩ := hex
    rw [hops o hm] at ho
    cases ho
  | row :: rest, results, ops, hops, hex => by
    have hops1 : ∀ o ∈ ops ++ [Op.rangeFetch u row.1 row.2.1], o.isOpen = false := by
      intro o hm
      rcases List.mem_append.mp hm with h | h
      · exact hops o h
      · rw [List.mem_singleton.mp h]
        rfl
    revert hex
    simp only [range_loop]
    split
    · intro _; rfl
    · split
      · intro _; rfl
      · split
        · intro _; rfl
        · split
          · intro _; rfl
          · intro hex
            exact range_loop_fallback_exact env J u all uoi rest _ _ hops1 hex

/-- C1.  If the trace of an extraction contains a stream open, the records
returned are exactly those of the full sequential scan over all original
entries: no record accumulated from earlier successful range reads of the
archive is ever mixed into a result that came from the fallback scan.  (In
range-read mode a stream open happens exactly when some range fetch or
blob parse failed and the strategy fell back.) -/
theorem fallback_result_is_full_scan (env : RemoteStore) (cfg : Config) (J : JsonLib)
    (s3_url : String) (rows : List OffsetRow) (uoi : Option (List String))
    (hex : ∃ o ∈ (extract_by_offsets env cfg J s3_url rows uoi).2, o.isOpen = true) :
    (extract_by_offsets env cfg J s3_url rows uoi).1 =
      (stream_and_extract env J s3_url rows uoi).1 := by
  revert hex
  unfold extract_by_offsets
  split
  · intro hex
    obtain ⟨o, hm, _⟩ := hex
    cases hm
  · split
    · intro hex
      exact range_loop_fallback_exact env J s3_url rows uoi rows [] []
        (by intro o hm; cases hm) hex
    · intro _
      rfl

/-- Witness for C1 at a concrete input: the first fetch fails, the trace
contains the stream open, and the result coincides with the full scan. -/
theorem fallback_result_is_full_scan_witness :
    (extract_by_offsets st_fail cfg_range jl_none "s3://b/k" [((0 : Int), (10 : Int), "u")] none).1 =
      (stream_and_extract st_fail jl_none "s3://b/k" [((0 : Int), (10 : Int), "u")] none).1 :=
  fallback_result_is_full_scan st_fail cfg_range jl_none "s3://b/k"
    [((0 : Int), (10 : Int), "u")] none ⟨Op.openStream "s3://b/k", by decide, rfl⟩

/-- C7.  A range fetch that returns no data, either a failed GET (None) or
empty bytes, makes the extractor fall back to the full sequential scan over
all the original entries of the group: the returned records are exactly the
full-scan records for the whole group, and the trace is the single failed
fetch followed by the operations of the scan. -/
theorem empty_fetch_falls_back (env : RemoteStore) (cfg : Config) (J : JsonLib) (u : String)
    (row : OffsetRow) (rest : List OffsetRow) (uoi : Option (List String))
    (hr : cfg.use_range_reads = true)
    (hf : env.range_get u row.1 row.2.1 = none ∨ env.range_get u row.1 row.2.1 = some "") :
    extract_by_offsets env cfg J u (row :: rest) uoi =
      ((stream_and_extract env J u (row :: rest) uoi).1,
       Op.rangeFetch u row.1 row.2.1 :: (stream_and_extract env J u (row :: rest) uoi).2) := by
  simp only [extract_by_offsets, List.isEmpty_cons, hr, if_true, Bool.false_eq_true, if_false]
  simp only [range_loop]
  rcases hf with hf | hf <;> rw [hf] <;> rfl

/-- A store whose range GET always returns empty bytes and whose archives
open as empty streams. -/
def st_empty_blob : RemoteStore :=
  { range_get := fun _ _ _ => some "", open_archive := fun _ => some [] }

/-- Witness for C7 at a concrete three-entry group whose first fetch returns
empty bytes. -/
theorem empty_fetch_falls_back_witness :
    extract_by_offsets st_empty_blob cfg_range jl_none "s3://b/k"
        [((0 : Int), (5 : Int), "u1"), ((5 : Int), (5 : Int), "u2"), ((10 : Int), (5 : Int), "u3")] none =
      ((stream_and_extract st_empty_blob jl_none "s3://b/k"
          [((0 : Int), (5 : Int), "u1"), ((5 : Int), (5 : Int), "u2"), ((10 : Int), (5 : Int), "u3")] none).1,
       Op.rangeFetch "s3://b/k" 0 5 ::
        (stream_and_extract st_empty_blob jl_none "s3://b/k"
          [((0 : Int), (5 : Int), "u1"), ((5 : Int), (5 : Int), "u2"), ((10 : Int), (5 : Int), "u3")] none).2) :=
  empty_fetch_falls_back st_empty_blob cfg_range jl_none "s3://b/k"
    ((0 : Int), (5 : Int), "u1") [((5 : Int), (5 : Int), "u2"), ((10 : Int), (5 : Int), "u3")] none
    rfl (Or.inr rfl)

/-- C4.  The code never retries a failed stream open: with the default
configuration declaring s3_read_retries = 2 additional attempts, a store
whose open always fails sees exactly one open attempt, after which the
archive is abandoned with an empty result.  This contradicts the configured
retry policy (config.py lines 19-20), whose fields are read nowhere in the
code. -/
theorem open_not_retried :
    ((extract_by_offsets st_fail cfg_range jl_none "s3://b/k"
        [((0 : Int), (10 : Int), "u")] none).2.countP Op.isOpen) = 1 ∧
    (extract_by_offsets st_fail cfg_range jl_none "s3://b/k"
        [((0 : Int), (10 : Int), "u")] none).1 = [] ∧
    cfg_range.s3_read_retries = 2 :=
  ⟨rfl, rfl, rfl⟩

/-- When a blob decodes as JSON but its nested Actual-Content-Type is not
the expected marker, the parser returns None: the content-type mismatch at
wat_extractor.py line 40 is indistinguishable, for the caller, from a parse
failure. -/
theorem parse_none_of_ct_mismatch (J : JsonLib) (b : String) (j v : Json)
    (hload : J.loads b = some j) (hct : actual_content_type j = some v)
    (hv : v.isStr content_type_marker = false) :
    parse_wat_record_bytes J b = none := by
  unfold actual_content_type at hct
  simp only [parse_wat_record_bytes, hload]
  cases h1 : j.pyGetD "Envelope" with
  | none => simp [h1] at hct
  | some envelope =>
    simp only [h1] at hct ⊢
    cases h2 : envelope.pyGetD "Payload-Metadata" with
    | none => simp [h2] at hct
    | some payload_meta =>
      simp only [h2] at hct ⊢
      simp [hct, hv]

/-- A JSON object whose nested Actual-Content-Type is "text/plain" rather
than the expected HTTP-response marker. -/
def obj_ct_mismatch : Json :=
  Json.obj [("Envelope", Json.obj [("Payload-Metadata",
    Json.obj [("Actual-Content-Type", Json.str "text/plain")])])]

/-- A json library that decodes the three-character blob brace-x-brace to
`obj_ct_mismatch`. -/
def jl_mismatch : JsonLib :=
  { loads := fun s => if s = "\x7bx\x7d" then some obj_ct_mismatch else none,
    dumps := fun _ => "" }

/-- A store whose range GETs return the blob decoded by `jl_mismatch` and
whose archives open as empty streams. -/
def st_blob_mismatch : RemoteStore :=
  { range_get := fun _ _ _ => some "\x7bx\x7d", open_archive := fun _ => some [] }

/-- Counterexample to C2.  A range-read blob that decodes as JSON whose
content-type field differs from the expected marker is NOT treated as a
skip: the extractor opens the full stream (the trace ends with the stream
open), i.e. it falls back to a full scan instead of continuing with the
next entry of the group. -/
theorem ct_mismatch_not_a_skip :
    extract_by_offsets st_blob_mismatch cfg_range jl_mismatch "s3://b/k"
        [((0 : Int), (3 : Int), "u")] none =
      ([], [Op.rangeFetch "s3://b/k" 0 3, Op.openStream "s3://b/k"]) :=
  rfl

/-- C2 as amended.  In the range-read strategy, a successfully fetched blob
that decodes as JSON whose nested content-type field does not equal the
expected marker is handled exactly like a parse failure: the parser returns
no record and the loop transfers to the full-scan fallback for the whole
archive group, discarding every record accumulated so far (the loop result
is exactly the full-scan result). -/
theorem ct_mismatch_falls_back (env : RemoteStore) (J : JsonLib) (u : String)
    (all rest : List OffsetRow) (uoi : Option (List String)) (row : OffsetRow)
    (results : List ExtractedRecord) (ops : List Op)
    (data piece : String) (j v : Json)
    (hfetch : env.range_get u row.1 row.2.1 = some data)
    (hne : data.isEmpty = false)
    (hslice : json_slice data = some piece)
    (hload : J.loads piece = some j)
    (hct : actual_content_type j = some v)
    (hv : v.isStr content_type_marker = false) :
    range_loop env J u all uoi (row :: rest) results ops =
      ((stream_and_extract env J u all uoi).1,
       (ops ++ [Op.rangeFetch u row.1 row.2.1]) ++ (stream_and_extract env J u all uoi).2) := by
  have hp := parse_none_of_ct_mismatch J piece j v hload hct hv
  simp only [range_loop, hfetch, hne, hslice, hp]
  rfl

/-- Witness for the amended C2 at the concrete mismatching blob. -/
theorem ct_mismatch_falls_back_witness :
    range_loop st_blob_mismatch jl_mismatch "s3://b/k" [((0 : Int), (3 : Int), "u")] none
        [((0 : Int), (3 : Int), "u")] [] [] =
      ((stream_and_extract st_blob_mismatch jl_mismatch "s3://b/k"
          [((0 : Int), (3 : Int), "u")] none).1,
       ([] ++ [Op.rangeFetch "s3://b/k" 0 3]) ++
        (stream_and_extract st_blob_mismatch jl_mismatch "s3://b/k"
          [((0 : Int), (3 : Int), "u")] none).2) :=
  ct_mismatch_falls_back st_blob_mismatch jl_mismatch "s3://b/k"
    [((0 : Int), (3 : Int), "u")] [] none ((0 : Int), (3 : Int), "u") [] []
    "\x7bx\x7d" "\x7bx\x7d" obj_ct_mismatch (Json.str "text/plain")
    rfl rfl rfl rfl rfl rfl

/-- A JSON object carrying only the expected content-type marker: no Head,
no Entity-Digest, no WARC-Payload-Digest. -/
def obj_ct_only : Json :=
  Json.obj [("Envelope", Json.obj [("Payload-Metadata",
    Json.obj [("Actual-Content-Type", Json.str content_type_marker)])])]

/-- A json library that decodes the three-character blob brace-y-brace to
`obj_ct_only`. -/
def jl_ct_only : JsonLib :=
  { loads := fun s => if s = "\x7by\x7d" then some obj_ct_only else none,
    dumps := fun _ => "" }

/-- A store whose range GETs return the blob decoded by `jl_ct_only`. -/
def st_blob_ct_only : RemoteStore :=
  { range_get := fun _ _ _ => some "\x7by\x7d", open_archive := fun _ => some [] }

/-- Counterexample to C3.  Via the range-read path the extractor emits a
record whose head AND digest are both null: a candidate with both fields
null is not dropped there, it appears in the returned result. -/
theorem range_path_emits_both_null :
    ((extract_by_offsets st_blob_ct_only cfg_range jl_ct_only "s3://b/k"
        [((0 : Int), (3 : Int), "u")] none).1.any
      (fun r => r.head.isNull && r.digest.isNull)) = true :=
  rfl

/-- A truthy JSON value is never null. -/
theorem truthy_not_null (j : Json) (h : j.truthy = true) : j.isNull = false := by
  cases j <;> first | rfl | (exact absurd h (by simp [Json.truthy]))

/-- Any record the full-scan step emits has a non-null head or a non-null
digest: the guard at wat_extractor.py line 107 admits a record only when
head or digest is truthy, truthy heads are stored as serialized strings and
truthy digests are non-null. -/
theorem scan_record_head_or_digest (J : JsonLib) (u : String) (uoi : Option (List String))
    (r : WatRecord) :
    ∀ x, scan_record J u uoi r = StepRes.proc (some x) →
      x.head.isNull = false ∨ x.digest.isNull = false := by
  unfold scan_record
  repeat' split
  all_goals intro x h
  all_goals cases h
  · exact Or.inl rfl
  · rename_i hguard hhead
    refine Or.inr (truthy_not_null _ ?_)
    rcases Bool.or_eq_true_iff.mp hguard with h1 | h1
    · exact absurd h1 hhead
    · exact h1

/-- Every record in the output of the scan loop either was in the initial
accumulator or has a non-null head or digest. -/
theorem scan_loop_head_or_digest (J : JsonLib) (u : String) (n : Nat) (uoi : Option (List String)) :
    ∀ recs results,
      (∀ y ∈ results, y.head.isNull = false ∨ y.digest.isNull = false) →
      ∀ x ∈ scan_loop J u n uoi recs results,
        x.head.isNull = false ∨ x.digest.isNull = false
  | [], results, hres, x, hx => hres x hx
  | r :: rest, results, hres, x, hx => by
    revert hx
    simp only [scan_loop]
    cases hrec : scan_record J u uoi r with
    | skip => exact fun hx => scan_loop_head_or_digest J u n uoi rest results hres x hx
    | abort => exact fun hx => hres x hx
    | proc found =>
      have hres2 : ∀ y ∈ step_append results found,
          y.head.isNull = false ∨ y.digest.isNull = false := by
        cases found with
        | none => exact hres
        | some z =>
          intro y hy
          rcases List.mem_append.mp hy with hy | hy
          · exact hres y hy
          · rw [List.mem_singleton.mp hy]
            exact scan_record_head_or_digest J u uoi r z hrec
      show (x ∈ if (uoi_truthy uoi && decide (n ≤ (step_append results found).length)) = true
              then step_append results found
              else scan_loop J u n uoi rest (step_append results found)) →
           x.head.isNull = false ∨ x.digest.isNull = false
      split
      · exact fun hx => hres2 x hx
      · exact fun hx => scan_loop_head_or_digest J u n uoi rest _ hres2 x hx

/-- C3 as amended.  Every record emitted by the full sequential scan has a
non-null head or a non-null digest (candidates with both null are silently
dropped there); the range-read path carries no such guarantee, as the
counterexample `range_path_emits_both_null` shows. -/
theorem full_scan_head_or_digest (env : RemoteStore) (J : JsonLib) (u : String)
    (offs : List OffsetRow) (uoi : Option (List String)) (x : ExtractedRecord)
    (hx : x ∈ (stream_and_extract env J u offs uoi).1) :
    x.head.isNull = false ∨ x.digest.isNull = false := by
  revert hx
  unfold stream_and_extract
  cases ho : env.open_archive u with
  | none => intro hx; cases hx
  | some recs =>
    intro hx
    exact scan_loop_head_or_digest J u offs.length uoi recs []
      (by intro y hy; cases hy) x hx

/-- A metadata record whose payload carries the marker and a digest but no
head. -/
def rec_digest_only : WatRecord := { rec_type := "metadata", target_uri := some "http://t", content := "c" }

/-- The payload object of `rec_digest_only`. -/
def obj_digest_only : Json :=
  Json.obj [("Envelope", Json.obj [("Payload-Metadata",
    Json.obj [("Actual-Content-Type", Json.str content_type_marker),
              ("Entity-Digest", Json.str "sha1:X")])])]

/-- A json library decoding the content of `rec_digest_only`. -/
def jl_digest_only : JsonLib :=
  { loads := fun s => if s = "c" then some obj_digest_only else none,
    dumps := fun _ => "" }

/-- A store whose archive opens as the single record `rec_digest_only`. -/
def st_scan_one : RemoteStore :=
  { range_get := fun _ _ _ => none, open_archive := fun _ => some [rec_digest_only] }

/-- The record the full scan of `st_scan_one` produces. -/
def x_digest_only : ExtractedRecord :=
  { url := Json.str "http://t", head := Json.null, digest := Json.str "sha1:X",
    wat_file := "s3://b/k" }

/-- Witness for the amended C3 at a concrete scan that emits one record. -/
theorem full_scan_head_or_digest_witness :
    x_digest_only.head.isNull = false ∨ x_digest_only.digest.isNull = false :=
  full_scan_head_or_digest st_scan_one jl_digest_only "s3://b/k"
    [((0 : Int), (1 : Int), "u")] none x_digest_only
    (show x_digest_only ∈ [x_digest_only] from List.mem_singleton_self x_digest_only)

/-- C6.  When any required column is missing from the query result, the run
fails with the validation error before any archive extraction work is
dispatched: the dispatch function returns the error and produces no groups. -/
theorem missing_column_validation (df : QueryResult) (c : String)
    (hc : c ∈ required_columns) (hmiss : c ∉ df.columns) :
    pipeline_dispatch df = Except.error validation_error_msg := by
  have hfalse : ¬ (required_columns.all (fun c => decide (c ∈ df.columns)) = true) := by
    intro hall
    exact hmiss (of_decide_eq_true (List.all_eq_true.mp hall c hc))
  unfold pipeline_dispatch
  rw [if_neg hfalse]

/-- A query result lacking the offset column. -/
def df_missing_offset : QueryResult :=
  { columns := ["url", "warc_filename", "length", "wat_s3_url"], rows := [] }

/-- Witness for C6 at a concrete query result missing the offset column. -/
theorem missing_column_validation_witness :
    pipeline_dispatch df_missing_offset = Except.error validation_error_msg :=
  missing_column_validation df_missing_offset "offset" (by decide) (by decide)

/-- Concatenating the flushed batches restores the buffered-then-task
records in order. -/
theorem flush_go_flatten (K : Nat) : ∀ rest buf, (flush_go K rest buf).flatten = buf ++ rest.flatten
  | [], buf => by
    by_cases h : buf.isEmpty
    · simp [flush_go, h, List.isEmpty_iff.mp h]
    · simp [flush_go, h]
  | r :: rest, buf => by
    simp only [flush_go]
    split
    · simp [flush_go_flatten K rest, List.append_assoc]
    · simp [flush_go_flatten K rest, List.append_assoc]

/-- Each flush empties the whole buffer, so K times the number of batches
is bounded by the total number of records plus K - 1. -/
theorem flush_go_count (K : Nat) (hK : 1 ≤ K) : ∀ rest buf,
    K * (flush_go K rest buf).length ≤ buf.length + rest.flatten.length + (K - 1)
  | [], buf => by
    by_cases h : buf.isEmpty
    · simp [flush_go, h]
    · have hb : 1 ≤ buf.length := by
        cases buf with
        | nil => simp at h
        | cons a l => simp
      simp only [flush_go, h, Bool.false_eq_true, if_false, List.length_cons,
        List.length_nil, List.flatten_nil]
      omega
  | r :: rest, buf => by
    simp only [flush_go]
    split
    · rename_i hKb
      have ih := flush_go_count K hK rest []
      simp only [List.length_nil, Nat.zero_add, List.flatten_nil] at ih
      simp only [List.length_cons, List.flatten_cons, List.length_append]
      rw [Nat.mul_add, Nat.mul_one]
      rw [List.length_append] at hKb
      generalize hL : K * (flush_go K rest []).length = M at ih ⊢
      omega
    · rename_i hKb
      have ih := flush_go_count K hK rest (buf ++ r)
      simp only [List.length_append] at ih
      simp only [List.flatten_cons, List.length_append]
      generalize hL : K * (flush_go K rest (buf ++ r)).length = M at ih ⊢
      omega

/-- An all-empty run flushes nothing. -/
theorem flush_go_nil (K : Nat) (hK : 1 ≤ K) :
    ∀ rest, List.flatten rest = [] → flush_go K rest [] = []
  | [], _ => by simp [flush_go]
  | r :: rest, hflat => by
    have hr : r = [] ∧ rest.flatten = [] := by
      simpa [List.flatten_cons] using hflat
    simp only [flush_go, List.nil_append, hr.1]
    rw [if_neg (by simp; omega : ¬ K ≤ ([] : List ExtractedRecord).length)]
    exact flush_go_nil K hK rest hr.2

/-- C5 as amended.  For a run with flush threshold K producing the task
results `tasks` in completion order: concatenating the flushed batches in
flush order yields exactly the produced records in aggregation order, the
sink receives at most ceil(M/K) batches for M total records, no batch is
flushed when M = 0, and at least one batch is flushed when M is positive.
The exact count can be smaller than ceil(M/K) because a flush always writes
the entire buffer, not K records at a time (see the counterexample). -/
theorem chunked_flush (K : Nat) (tasks : List (List ExtractedRecord)) (hK : 1 ≤ K) :
    (flush_batches K tasks).flatten = tasks.flatten ∧
    (flush_batches K tasks).length ≤ (tasks.flatten.length + K - 1) / K ∧
    (tasks.flatten = [] → flush_batches K tasks = []) ∧
    (tasks.flatten ≠ [] → 1 ≤ (flush_batches K tasks).length) := by
  have hj : (flush_batches K tasks).flatten = tasks.flatten := by
    have h := flush_go_flatten K tasks []
    simpa [flush_batches] using h
  refine ⟨hj, ?_, ?_, ?_⟩
  · have hc := flush_go_count K hK tasks []
    simp only [List.length_nil, Nat.zero_add] at hc
    rw [Nat.le_div_iff_mul_le hK, Nat.add_sub_assoc hK, Nat.mul_comm]
    exact hc
  · intro hempty
    exact flush_go_nil K hK tasks hempty
  · intro hne
    cases hfb : flush_batches K tasks with
    | nil =>
      exfalso
      apply hne
      rw [← hj, hfb]
      rfl
    | cons a l => simp

/-- A sample extracted record for the flush scenarios. -/
def r0 : ExtractedRecord :=
  { url := Json.null, head := Json.str "h", digest := Json.null, wat_file := "w" }

/-- Counterexample to C5.  With threshold K = 2 and a single task producing
M = 3 records, the sink receives one batch of three records, not
ceil(3/2) = 2 batches: a flush empties the whole buffer at once. -/
theorem chunked_flush_counterexample :
    (flush_batches 2 [[r0, r0, r0]]).length = 1 ∧
    (([[r0, r0, r0]] : List (List ExtractedRecord)).flatten.length + 2 - 1) / 2 = 2 :=
  ⟨rfl, rfl⟩

/-- Witness for the amended C5 at a concrete two-task run. -/
theorem chunked_flush_witness :
    (flush_batches 2 [[r0], [r0]]).flatten = ([[r0], [r0]] : List (List ExtractedRecord)).flatten ∧
    (flush_batches 2 [[r0], [r0]]).length ≤
      (([[r0], [r0]] : List (List ExtractedRecord)).flatten.length + 2 - 1) / 2 :=
  ⟨(chunked_flush 2 [[r0], [r0]] (by decide)).1,
   (chunked_flush 2 [[r0], [r0]] (by decide)).2.1⟩

/-- First row of the C8 counterexample: archive location X via warc file
"b", offset 5. -/
def rowA : QueryRow :=
  { url := "u1", warc_filename := "b", offset := 5, length := 7, wat_s3_url := "X" }

/-- Second row of the C8 counterexample: the same archive location X via
warc file "a", offset 10. -/
def rowB : QueryRow :=
  { url := "u2", warc_filename := "a", offset := 10, length := 7, wat_s3_url := "X" }

/-- Counterexample to C8.  The code sorts rows by warc_filename (not by the
wat_s3_url it groups by), so a group whose rows span two warc files is not
ascending by offset: grouping `[rowA, rowB]` under location X yields the
offset sequence [10, 5], and the extractor would issue its range fetches in
that decreasing order. -/
theorem group_not_sorted_by_offset :
    ¬ (((group_rows [rowA, rowB] "X").map (fun r => r.offset)).Pairwise
        (fun a b : Int => a ≤ b)) := by
  have h : (group_rows [rowA, rowB] "X").map (fun r => r.offset) = [(10 : Int), 5] := rfl
  rw [h]
  decide

/-- In a run of rows sorted by the lexicographic warc_filename-offset key,
a sublist on which warc_filename is constant is ascending by offset. -/
theorem pairwise_row_le_offsets (w : String) (l : List QueryRow)
    (hp : l.Pairwise row_le) (hw : ∀ r ∈ l, r.warc_filename = w) :
    (l.map (fun r => r.offset)).Pairwise (fun a b : Int => a ≤ b) := by
  rw [List.pairwise_map]
  refine hp.imp_of_mem ?_
  intro a b ha hb hab
  rcases hab with h1 | h1
  · exfalso
    rw [hw a ha, hw b hb] at h1
    rw [chars_ltb_irrefl] at h1
    cases h1
  · exact h1.2

/-- When all rows of a group share one warc_filename, the group is ascending
by offset. -/
theorem group_rows_sorted (rows : List QueryRow) (k w : String)
    (hw : ∀ r ∈ group_rows rows k, r.warc_filename = w) :
    ((group_rows rows k).map (fun r => r.offset)).Pairwise (fun a b : Int => a ≤ b) := by
  have hs : (sort_rows rows).Pairwise row_le := List.sorted_insertionSort row_le rows
  have hsub : (group_rows rows k).Sublist (sort_rows rows) := List.filter_sublist _
  exact pairwise_row_le_offsets w _ (List.Pairwise.sublist hsub hs) hw

/-- Range starts distribute over trace concatenation. -/
theorem range_starts_append (a b : List Op) :
    range_starts (a ++ b) = range_starts a ++ range_starts b :=
  List.filterMap_append a b _

/-- The full scan performs exactly one operation: the stream open. -/
theorem stream_and_extract_ops (env : RemoteStore) (J : JsonLib) (u : String)
    (offs : List OffsetRow) (uoi : Option (List String)) :
    (stream_and_extract env J u offs uoi).2 = [Op.openStream u] := by
  unfold stream_and_extract
  split <;> rfl

/-- The fallback extends the trace with the single stream open. -/
theorem range_fallback_ops (env : RemoteStore) (J : JsonLib) (u : String)
    (all : List OffsetRow) (uoi : Option (List String)) (ops : List Op) :
    (range_fallback env J u all uoi ops).2 = ops ++ [Op.openStream u] := by
  simp [range_fallback, stream_and_extract_ops]

/-- The offsets fetched by the range loop are the already-traced starts
followed by a prefix of the pending offsets, in order. -/
theorem range_loop_starts_take (env : RemoteStore) (J : JsonLib) (u : String)
    (all : List OffsetRow) (uoi : Option (List String)) :
    ∀ pending results ops, ∃ n,
      range_starts ((range_loop env J u all uoi pending results ops).2) =
        range_starts ops ++ (pending.map (fun t : OffsetRow => t.1)).take n
  | [], results, ops => ⟨0, by simp [range_loop]⟩
  | row :: rest, results, ops => by
    simp only [range_loop]
    split
    · exact ⟨1, by simp [range_fallback_ops, range_starts_append, range_starts]⟩
    · split
      · exact ⟨1, by simp [range_fallback_ops, range_starts_append, range_starts]⟩
      · split
        · exact ⟨1, by simp [range_fallback_ops, range_starts_append, range_starts]⟩
        · split
          · exact ⟨1, by simp [range_fallback_ops, range_starts_append, range_starts]⟩
          · rename_i parsed hparsed
            obtain ⟨n, hn⟩ :=
              range_loop_starts_take env J u all uoi rest
                (results ++ [range_record u row parsed]) (ops ++ [Op.rangeFetch u row.1 row.2.1])
            refine ⟨n + 1, ?_⟩
            rw [hn, range_starts_append]
            simp [range_starts, List.take_succ_cons]

/-- The fetch offsets of a whole extraction are a prefix, in order, of the
offsets of the rows it was given. -/
theorem extract_starts_take (env : RemoteStore) (cfg : Config) (J : JsonLib) (u : String)
    (rows : List OffsetRow) (uoi : Option (List String)) :
    ∃ n, range_starts ((extract_by_offsets env cfg J u rows uoi).2) =
      (rows.map (fun t : OffsetRow => t.1)).take n := by
  unfold extract_by_offsets
  split
  · exact ⟨0, by simp [range_starts]⟩
  · split
    · obtain ⟨n, hn⟩ := range_loop_starts_take env J u rows uoi rows [] []
      exact ⟨n, by simpa [range_starts] using hn⟩
    · exact ⟨0, by simp [stream_and_extract_ops, range_starts]⟩

/-- C8 as amended.  Dispatch builds one group per distinct archive location
(the keys are free of duplicates), but the code sorts rows by warc_filename
while grouping by wat_s3_url, so a group is ascending by offset only when
its rows come from a single warc file.  Under that proviso (which holds in
the intended data, where the wat location is derived from the warc
filename), the group offsets are non-decreasing and the extractor issues its
range fetches in non-decreasing offset order, since it fetches a prefix of
the given rows in order. -/
theorem rows_grouped_and_fetch_order (rows : List QueryRow) (k w : String)
    (hw : ∀ r ∈ group_rows rows k, r.warc_filename = w) :
    (pipeline_keys rows).Nodup ∧
    ((group_rows rows k).map (fun r => r.offset)).Pairwise (fun a b : Int => a ≤ b) ∧
    ∀ env cfg J uoi,
      (range_starts ((extract_by_offsets env cfg J k (group_offset_rows rows k) uoi).2)).Pairwise
        (fun a b : Int => a ≤ b) := by
  have hsorted := group_rows_sorted rows k w hw
  refine ⟨List.nodup_dedup _, hsorted, ?_⟩
  intro env cfg J uoi
  obtain ⟨n, hn⟩ := extract_starts_take env cfg J k (group_offset_rows rows k) uoi
  rw [hn]
  have hmap : (group_offset_rows rows k).map (fun t : OffsetRow => t.1) =
      (group_rows rows k).map (fun r => r.offset) := by
    simp [group_offset_rows, List.map_map]
  rw [hmap]
  exact List.Pairwise.sublist (List.take_sublist n _) hsorted

/-- First row of the C8 witness group: warc file "a", offset 5. -/
def rowC : QueryRow :=
  { url := "u1", warc_filename := "a", offset := 5, length := 7, wat_s3_url := "X" }

/-- Second row of the C8 witness group: warc file "a", offset 10. -/
def rowD : QueryRow :=
  { url := "u2", warc_filename := "a", offset := 10, length := 7, wat_s3_url := "X" }

/-- Witness for the amended C8 at a concrete single-warc group. -/
theorem rows_grouped_and_fetch_order_witness :
    (pipeline_keys [rowC, rowD]).Nodup ∧
    ((group_rows [rowC, rowD] "X").map (fun r => r.offset)).Pairwise (fun a b : Int => a ≤ b) :=
  ⟨(rows_grouped_and_fetch_order [rowC, rowD] "X" "a" (by decide)).1,
   (rows_grouped_and_fetch_order [rowC, rowD] "X" "a" (by decide)).2.1⟩
